import Mathlib

/-!
A verification development for the `Table` class of `src/table.js`, the
editable-table widget controller of this repository.

The class is embedded shallowly:

* a DOM `<td>` cell becomes the structure `Cell`, identified by a `Nat` id
  standing for DOM reference identity;
* the controller's private state (`_numberOfRows`, `_numberOfColumns`, the
  `<table>` rows, `_selectedCell`) becomes the structure `Table`; the two
  counters are JS numbers that the code only ever increments and decrements,
  modelled as `Int`;
* each method becomes a function on `Table`; methods that can raise a DOM
  exception (`insertRow`/`insertCell`/`deleteRow`/`deleteCell` with an
  out-of-range index) return `Option`, with `none` standing for the exception;
* the `_selectedCell` reference is modelled as the `id` of the referenced
  cell, resolved against the live grid.  A cell that has been removed from
  its row no longer resolves (its DOM `cellIndex` is `-1`, which the model
  reproduces).  A cell whose whole row was removed from the table keeps, in
  the DOM, its detached parent `<tr>` (with `rowIndex` `-1`); the model
  resolves such a selection to `none` instead.  No theorem below depends on
  a state of that shape.
-/

namespace TableJS

/-- A table cell.  `_fillCell` tags a freshly inserted `<td>` with the
structural cell class and appends one content container holding one editable
area created by `_createContenteditableArea`, whose `contenteditable`
attribute is the negation of the controller's read-only flag.  `id` stands
for DOM reference identity, `highlighted` for the presence of the highlight
class on the cell, `content` for the text of the editable area (empty for a
fresh cell). -/
structure Cell where
  id : Nat
  contenteditable : Bool
  highlighted : Bool
  content : String
deriving DecidableEq, Repr

/-- The controller state of one `Table` instance. -/
structure Table where
  readOnly : Bool
  numberOfRows : Int
  numberOfColumns : Int
  rows : List (List Cell)
  selectedCell : Option Nat
  nextId : Nat
deriving DecidableEq, Repr

namespace Table

/-- The constructor: read-only flag stored, both counters zero, an empty
`<table>` inside the wrapper, no selection. -/
def new (readOnly : Bool) : Table :=
  { readOnly := readOnly
    numberOfRows := 0
    numberOfColumns := 0
    rows := []
    selectedCell := none
    nextId := 0 }

/-- `direction = Math.min(Math.max(direction, 0), 1)`, the clamp performed at
the top of both `insertColumn` and `insertRow`. -/
def clampDir (direction : Int) : Int :=
  min (max direction 0) 1

/-- The cell produced by `_fillCell` on a freshly inserted empty cell:
cell class added, one nested content container, one editable area with
`contenteditable = !readOnly`, no text, no highlight. -/
def mkCell (id : Nat) (readOnly : Bool) : Cell :=
  { id := id, contenteditable := !readOnly, highlighted := false, content := "" }

/-- Insert an element at position `n` of a list (the representation of the
DOM `insertBefore` performed by `insertRow`/`insertCell` for an in-range
index; for `n = length` it appends). -/
def insAt : Nat → α → List α → List α
  | 0, a, l => a :: l
  | _ + 1, a, [] => [a]
  | n + 1, a, b :: l => b :: insAt n a l

/-- Position of the first cell satisfying `p` in one row, as computed by the
DOM from child order. -/
def findIdxIn (p : Cell → Bool) : List Cell → Option Nat
  | [] => none
  | c :: cs => if p c then some 0 else (findIdxIn p cs).map (· + 1)

/-- Resolve a cell reference against the grid: the (row index, cell index)
position of the cell with the given id, or `none` if the cell is in no row
of the table. -/
def findCellPos : List (List Cell) → Nat → Option (Nat × Nat)
  | [], _ => none
  | r :: rs, id =>
    match findIdxIn (fun c => c.id == id) r with
    | some j => some (0, j)
    | none => (findCellPos rs id).map (fun p => (p.1 + 1, p.2))

/-- The DOM `cellIndex` property of the cell with the given id: its position
among the cells of its row, `-1` when the cell is in no row. -/
def domCellIndex (rows : List (List Cell)) (id : Nat) : Int :=
  match findCellPos rows id with
  | some p => (p.2 : Int)
  | none => -1

/-- The getter `selectedRow`: `null` when no cell is selected, otherwise the
row of the selected cell (`selectedCell.closest('tr')`), represented by its
`rowIndex` in the grid. -/
def selectedRow (s : Table) : Option Nat :=
  match s.selectedCell with
  | none => none
  | some id => (findCellPos s.rows id).map (·.1)

/-- Index resolution of `HTMLTableElement.insertRow(i)` on a table with
`len` rows: `-1` and `len` append, `0 ≤ i ≤ len` inserts at `i`, anything
else raises `IndexSizeError`. -/
def domInsertRowIdx (len : Nat) (i : Int) : Option Nat :=
  if i = -1 then some len
  else if 0 ≤ i ∧ i ≤ (len : Int) then some i.toNat
  else none

/-- `HTMLTableRowElement.insertCell(i)`: `-1` and `row.length` append,
`0 ≤ i ≤ row.length` inserts at `i`, anything else raises
`IndexSizeError`. -/
def domInsertCell (row : List Cell) (i : Int) (c : Cell) : Option (List Cell) :=
  if i = -1 then some (row ++ [c])
  else if 0 ≤ i ∧ i ≤ (row.length : Int) then some (insAt i.toNat c row)
  else none

/-- `HTMLTableRowElement.deleteCell(i)`: `-1` removes the last cell
(raising on an empty row), `0 ≤ i < row.length` removes the cell at `i`,
anything else raises `IndexSizeError`. -/
def domDeleteCell (row : List Cell) (i : Int) : Option (List Cell) :=
  if i = -1 then
    match row with
    | [] => none
    | _ :: _ => some row.dropLast
  else if 0 ≤ i ∧ i < (row.length : Int) then some (row.eraseIdx i.toNat)
  else none

/-- `HTMLTableElement.deleteRow(i)` index resolution, mirroring
`domInsertRowIdx`. -/
def domDeleteRowIdx (len : Nat) (i : Int) : Option Nat :=
  if i = -1 then
    match len with
    | 0 => none
    | _ + 1 => some (len - 1)
  else if 0 ≤ i ∧ i < (len : Int) then some i.toNat
  else none

/-- The cells created by `_fillRow` on a fresh empty row: the loop
`for (let i = 0; i < this._numberOfColumns; i++)` appends one `_fillCell`
cell per iteration, so it runs `numberOfColumns` times when the counter is
nonnegative and not at all otherwise.  Fresh DOM identities are drawn in
order starting from `nid`. -/
def fillRowCells (numberOfColumns : Int) (nid : Nat) (readOnly : Bool) : List Cell :=
  (List.range numberOfColumns.toNat).map (fun i => mkCell (nid + i) readOnly)

/-- The result of `insertRow`: the state after the call, the position the
new row was spliced in at, and the returned row element. -/
structure RowInsertion where
  state : Table
  pos : Nat
  newRow : List Cell
deriving DecidableEq, Repr

/-- `insertRow(direction)`: clamp the direction; the insertion index is
`selectedRow.rowIndex + direction` when a row is selected and `0` otherwise;
`this._table.insertRow` splices in an empty row, `_numberOfRows` is
incremented and `_fillRow` populates the row; the row is returned. -/
def insertRow (s : Table) (direction : Int := 0) : Option RowInsertion :=
  let d := clampDir direction
  let insertionIndex : Int :=
    match selectedRow s with
    | some r => (r : Int) + d
    | none => 0
  match domInsertRowIdx s.rows.length insertionIndex with
  | none => none
  | some p =>
    let newRow := fillRowCells s.numberOfColumns s.nextId s.readOnly
    some { state := { s with
                      rows := insAt p newRow s.rows
                      numberOfRows := s.numberOfRows + 1
                      nextId := s.nextId + newRow.length }
           pos := p
           newRow := newRow }

/-- The insertion index computed by `insertColumn`:
`selectedCell.cellIndex + direction` when a cell is selected, `0`
otherwise. -/
def insColIdx (s : Table) (direction : Int) : Int :=
  match s.selectedCell with
  | some id => domCellIndex s.rows id + clampDir direction
  | none => 0

/-- The loop of `insertColumn`: one `insertCell` + `_fillCell` per existing
row, all at the same index, drawing fresh identities in row order. -/
def insertCellEachRow : List (List Cell) → Int → Bool → Nat → Option (List (List Cell))
  | [], _, _, _ => some []
  | r :: rs, i, ro, nid =>
    match domInsertCell r i (mkCell nid ro), insertCellEachRow rs i ro (nid + 1) with
    | some r', some rs' => some (r' :: rs')
    | _, _ => none

/-- `insertColumn(direction)`: clamp the direction, compute the insertion
index from the selected cell (or default to 0), increment
`_numberOfColumns`, then insert one filled cell at that index in every
row. -/
def insertColumn (s : Table) (direction : Int := 0) : Option Table :=
  match insertCellEachRow s.rows (insColIdx s direction) s.readOnly s.nextId with
  | none => none
  | some rows' => some { s with
                         rows := rows'
                         numberOfColumns := s.numberOfColumns + 1
                         nextId := s.nextId + s.rows.length }

/-- The loop of `deleteColumn`: one `deleteCell` per row, all at the same
index. -/
def deleteCellEachRow : List (List Cell) → Int → Option (List (List Cell))
  | [], _ => some []
  | r :: rs, i =>
    match domDeleteCell r i, deleteCellEachRow rs i with
    | some r', some rs' => some (r' :: rs')
    | _, _ => none

/-- `deleteColumn()`: return at once when no cell is selected; otherwise
take the selected cell's `cellIndex`, decrement `_numberOfColumns` and
delete the cell at that index in every row. -/
def deleteColumn (s : Table) : Option Table :=
  match s.selectedCell with
  | none => some s
  | some id =>
    match deleteCellEachRow s.rows (domCellIndex s.rows id) with
    | none => none
    | some rows' => some { s with
                           rows := rows'
                           numberOfColumns := s.numberOfColumns - 1 }

/-- `deleteRow(index = -1)`: return at once when no row is selected;
otherwise remove the row at the selected row's `rowIndex` and decrement
`_numberOfRows`.  The `index` parameter is declared with default `-1` and
never read in the body. -/
def deleteRow (s : Table) (index : Int := -1) : Option Table :=
  match selectedRow s with
  | none => some s
  | some r =>
    match domDeleteRowIdx s.rows.length (r : Int) with
    | none => none
    | some p => some { s with
                       rows := s.rows.eraseIdx p
                       numberOfRows := s.numberOfRows - 1 }

/-- `insertColumnAfter()` delegates to `insertColumn(1)`. -/
def insertColumnAfter (s : Table) : Option Table :=
  insertColumn s 1

/-- `insertColumnBefore()` delegates to `insertColumn()`, whose `direction`
parameter defaults to `0`. -/
def insertColumnBefore (s : Table) : Option Table :=
  insertColumn s 0

/-- `insertRowBefore()` delegates to `insertRow()`, whose `direction`
parameter defaults to `0`.  (Its doc comment in the source reads "Inserts
new row below a current row".) -/
def insertRowBefore (s : Table) : Option RowInsertion :=
  insertRow s 0

/-- `insertRowAfter()` delegates to `insertRow(1)`.  (Its doc comment in the
source reads "Inserts row above a current row".) -/
def insertRowAfter (s : Table) : Option RowInsertion :=
  insertRow s 1

/-- Set or clear the highlight class on one cell, identified by id. -/
def hlUpd (id : Nat) (b : Bool) (c : Cell) : Cell :=
  if c.id = id then { c with highlighted := b } else c

/-- Update the highlight class on every cell with the given id
(`classList.add`/`classList.remove` on the referenced cell; in a grid with
distinct ids this touches at most one cell). -/
def setHighlight (rows : List (List Cell)) (id : Nat) (b : Bool) : List (List Cell) :=
  rows.map (List.map (hlUpd id b))

/-- The public setter `set selectedCell(cell)`: remove the highlight class
from the previously stored cell if any, store the new reference, add the
highlight class to it if non-null. -/
def setSelectedCell (s : Table) (cell : Option Nat) : Table :=
  let rows1 :=
    match s.selectedCell with
    | some old => setHighlight s.rows old false
    | none => s.rows
  let rows2 :=
    match cell with
    | some nw => setHighlight rows1 nw true
    | none => rows1
  { s with rows := rows2, selectedCell := cell }

/-- The possible targets of a DOM event inside the widget: the editable
area of a cell, the cell element itself, or anything else. -/
inductive EvTarget where
  | inputFieldOf (cellId : Nat)
  | cellElem (cellId : Nat)
  | other
deriving DecidableEq, Repr

/-- `_focusEditField(event)`: return unless the target carries the editable
input class; otherwise assign the enclosing cell
(`event.target.closest('.' + CSS.cell)`) directly to the private
`_selectedCell` field.  The assignment bypasses the `selectedCell` setter,
so no highlight class changes. -/
def focusEditField (s : Table) (target : EvTarget) : Table :=
  match target with
  | .inputFieldOf id => { s with selectedCell := some id }
  | _ => s

/-- `_blurEditField(event)`: return unless the target carries the editable
input class; otherwise assign `null` directly to the private
`_selectedCell` field. -/
def blurEditField (s : Table) (target : EvTarget) : Table :=
  match target with
  | .inputFieldOf _ => { s with selectedCell := none }
  | _ => s

/-- `_clickedOnCell(event)`: return unless the target carries the cell
class; otherwise focus the cell's editable area
(`event.target.querySelector('.' + CSS.inputField).focus()`), which fires
the capture-phase focus listener, i.e. `_focusEditField` with the editable
area as target.  Every cell built by `_fillCell` contains exactly one
editable area, so the `querySelector` lookup succeeds. -/
def clickedOnCell (s : Table) (target : EvTarget) : Table :=
  match target with
  | .cellElem id => focusEditField s (.inputFieldOf id)
  | _ => s

/-- Non-keydown DOM events dispatched through the listeners registered by
`_attachEvents`.  `_attachEvents` registers exactly four listeners: `focus`
(capture phase), `keydown` and `click` on the table element, and `keydown`
on the wrapper.  No listener is registered for `blur` or `focusout`, so
those events fall through without reaching any handler. -/
inductive DomEvent where
  | focus (target : EvTarget)
  | blur (target : EvTarget)
  | click (target : EvTarget)
deriving DecidableEq, Repr

/-- Dispatch of a non-keydown event through the listeners registered by
`_attachEvents`: `focus` reaches `_focusEditField`, `click` reaches
`_clickedOnCell`, and `blur` reaches nothing. -/
def dispatchEvent (s : Table) (e : DomEvent) : Table :=
  match e with
  | .focus t => focusEditField s t
  | .blur _ => s
  | .click t => clickedOnCell s t

/-- A keyboard event as observed by the keydown listeners. -/
structure KeyEvent where
  key : String
  ctrlKey : Bool
  shiftKey : Bool
  target : EvTarget
deriving DecidableEq, Repr

/-- The JavaScript exceptions the Ctrl+Enter handler can raise. -/
inductive JsError where
  | typeError
  | referenceError
deriving DecidableEq, Repr

/-- Outcome of the Ctrl+Enter path: the controller state after the
mutations that did run, the exception raised if any, and whether the
`mouseInActivatingArea` custom event was dispatched. -/
structure EnterOutcome where
  state : Table
  error : Option JsError
  dispatched : Bool
deriving DecidableEq, Repr

/-- `_containerEnterPressed(event)`: `insertRow(1)`, then
`newRow.cells[0].click()`, then dispatch of the `mouseInActivatingArea`
custom event.  When the fresh row has no cells, `newRow.cells[0]` is
`undefined` and the `.click()` call raises `TypeError` with the row already
inserted.  Otherwise the click focuses the first cell's editable area
(selecting that cell); building the event detail then evaluates the
identifier `side`, which is bound nowhere in the module, so a
`ReferenceError` is raised before `dispatchEvent` runs and the custom event
is never dispatched. -/
def containerEnterPressed (s : Table) : Option EnterOutcome :=
  match insertRow s 1 with
  | none => none
  | some ri =>
    match ri.newRow.head? with
    | none => some { state := ri.state, error := some .typeError, dispatched := false }
    | some c =>
      let s2 := clickedOnCell ri.state (.cellElem c.id)
      some { state := s2, error := some .referenceError, dispatched := false }

/-- `_containerKeydown(event)`: delegate to `_containerEnterPressed` on
Ctrl+Enter, do nothing otherwise.  (The table-level keydown listener
`_pressedEnterInEditField` runs first on the same event but only calls
`preventDefault`, never touching controller state.) -/
def containerKeydown (s : Table) (e : KeyEvent) : Option EnterOutcome :=
  if e.key = "Enter" ∧ e.ctrlKey = true then containerEnterPressed s
  else some { state := s, error := none, dispatched := false }

/-- One public mutation call, for reasoning about call sequences. -/
inductive Op where
  | insertRow (direction : Int)
  | deleteRow (index : Int)
  | insertColumn (direction : Int)
  | deleteColumn
deriving DecidableEq, Repr

/-- Apply one mutation call to the state (the row returned by `insertRow`
is dropped). -/
def applyOp (s : Table) : Op → Option Table
  | .insertRow d => (Table.insertRow s d).map (·.state)
  | .deleteRow i => Table.deleteRow s i
  | .insertColumn d => Table.insertColumn s d
  | .deleteColumn => Table.deleteColumn s

/-- Apply a sequence of mutation calls. -/
def run (s : Table) : List Op → Option Table
  | [] => some s
  | op :: ops =>
    match applyOp s op with
    | some s' => run s' ops
    | none => none

/-- Apply a sequence of assignments through the public `selectedCell`
setter. -/
def runSel (s : Table) : List (Option Nat) → Table
  | [] => s
  | v :: vs => runSel (setSelectedCell s v) vs

/-- All cells of the grid, in row order. -/
def allCells (s : Table) : List Cell :=
  s.rows.flatten

/-- The DOM identities of all cells of the grid. -/
def cellIds (s : Table) : List Nat :=
  (allCells s).map Cell.id

/-- Number of cells of the grid carrying the highlight class. -/
def highlightCount (s : Table) : Nat :=
  (allCells s).countP (fun c => c.highlighted)

/-- Every highlighted cell of the grid is the one the stored selection
reference points at. -/
def HlInv (s : Table) : Prop :=
  ∀ c ∈ allCells s, c.highlighted = true → s.selectedCell = some c.id

instance (s : Table) : Decidable (HlInv s) :=
  decidable_of_iff (∀ c ∈ allCells s, c.highlighted = true → s.selectedCell = some c.id)
    Iff.rfl

/-- A concrete 2-by-2 table with no selection, as produced by two `insertRow`
and two `insertColumn` calls on a fresh controller (see
`run_reaches_grid22`). -/
def grid22 : Table :=
  { readOnly := false
    numberOfRows := 2
    numberOfColumns := 2
    rows := [[mkCell 2 false, mkCell 0 false], [mkCell 3 false, mkCell 1 false]]
    selectedCell := none
    nextId := 4 }

/-- `grid22` after the user focuses the editable area of the cell with id 0
(row 0, column 1): the focus handler stores the cell reference without
touching highlight classes. -/
def grid22sel : Table :=
  { grid22 with selectedCell := some 0 }

/-- A concrete 1-by-1 table whose only cell is selected, as after focusing
its editable area. -/
def grid11sel : Table :=
  { readOnly := false
    numberOfRows := 1
    numberOfColumns := 1
    rows := [[mkCell 0 false]]
    selectedCell := some 0
    nextId := 1 }

theorem clampDir_nonneg (d : Int) : 0 ≤ clampDir d := by
  unfold clampDir; omega

theorem clampDir_le_one (d : Int) : clampDir d ≤ 1 := by
  unfold clampDir; omega

theorem clampDir_eq_zero_or_one (d : Int) : clampDir d = 0 ∨ clampDir d = 1 := by
  unfold clampDir; omega

theorem insAt_length : ∀ (n : Nat) (a : α) (l : List α),
    (insAt n a l).length = l.length + 1
  | 0, _, _ => rfl
  | _ + 1, _, [] => rfl
  | n + 1, a, b :: l => by
    simp only [insAt, List.length_cons, insAt_length n a l]

theorem insAt_getElem_self : ∀ (n : Nat) (a : α) (l : List α), n ≤ l.length →
    (insAt n a l)[n]? = some a
  | 0, _, _, _ => by simp [insAt]
  | _ + 1, _, [], h => absurd h (by simp)
  | n + 1, a, b :: l, h => by
    simpa only [insAt, List.getElem?_cons_succ] using
      insAt_getElem_self n a l (by simpa using h)

theorem fillRowCells_length (n : Int) (nid : Nat) (ro : Bool) :
    (fillRowCells n nid ro).length = n.toNat := by
  simp [fillRowCells]

theorem fillRowCells_mem {n : Int} {nid : Nat} {ro : Bool} {c : Cell}
    (h : c ∈ fillRowCells n nid ro) :
    c.contenteditable = !ro ∧ c.highlighted = false ∧ c.content = "" := by
  simp only [fillRowCells, List.mem_map] at h
  obtain ⟨i, -, rfl⟩ := h
  exact ⟨rfl, rfl, rfl⟩

theorem findIdxIn_lt {p : Cell → Bool} : ∀ {l : List Cell} {j : Nat},
    findIdxIn p l = some j → j < l.length
  | [], _, h => by simp [findIdxIn] at h
  | c :: cs, j, h => by
    simp only [findIdxIn] at h
    split at h
    · cases h; simp
    · obtain ⟨j', hj', rfl⟩ := Option.map_eq_some'.mp h
      simpa using findIdxIn_lt hj'

theorem findCellPos_spec : ∀ {rows : List (List Cell)} {id : Nat} {r j : Nat},
    findCellPos rows id = some (r, j) →
    ∃ row, rows[r]? = some row ∧ j < row.length
  | [], _, _, _, h => by simp [findCellPos] at h
  | row :: rs, id, r, j, h => by
    simp only [findCellPos] at h
    split at h
    · rename_i j0 hj0
      cases h
      exact ⟨row, by simp, findIdxIn_lt hj0⟩
    · obtain ⟨⟨r', j'⟩, hp, hpr⟩ := Option.map_eq_some'.mp h
      cases hpr
      obtain ⟨row', hrow', hj'⟩ := findCellPos_spec hp
      exact ⟨row', by simpa using hrow', hj'⟩

theorem selectedRow_lt {s : Table} {r : Nat} (h : selectedRow s = some r) :
    r < s.rows.length := by
  unfold selectedRow at h
  split at h
  · exact absurd h (by simp)
  · obtain ⟨⟨r', j'⟩, hp, hpr⟩ := Option.map_eq_some'.mp h
    cases hpr
    obtain ⟨row, hrow, -⟩ := findCellPos_spec hp
    exact (List.getElem?_eq_some.mp hrow).1

theorem insertRow_spec (s : Table) (d : Int) :
    ∃ ri, insertRow s d = some ri ∧
      ri.newRow = fillRowCells s.numberOfColumns s.nextId s.readOnly ∧
      (∀ r, selectedRow s = some r → (ri.pos : Int) = (r : Int) + clampDir d) ∧
      (selectedRow s = none → ri.pos = 0) ∧
      ri.pos ≤ s.rows.length ∧
      ri.state = { s with
                   rows := insAt ri.pos ri.newRow s.rows
                   numberOfRows := s.numberOfRows + 1
                   nextId := s.nextId + ri.newRow.length } := by
  cases hsr : selectedRow s with
  | none =>
    have h0 : domInsertRowIdx s.rows.length 0 = some 0 := by
      unfold domInsertRowIdx
      rw [if_neg (by omega), if_pos (by omega)]
      rfl
    have key : insertRow s d = some
        { state := { s with
                     rows := insAt 0 (fillRowCells s.numberOfColumns s.nextId s.readOnly) s.rows
                     numberOfRows := s.numberOfRows + 1
                     nextId := s.nextId +
                       (fillRowCells s.numberOfColumns s.nextId s.readOnly).length }
          pos := 0
          newRow := fillRowCells s.numberOfColumns s.nextId s.readOnly } := by
      simp [insertRow, hsr, h0]
    refine ⟨_, key, rfl, ?_, fun _ => rfl, by simp, rfl⟩
    intro r hr
    simp [hsr] at hr
  | some r =>
    have hr : r < s.rows.length := selectedRow_lt hsr
    have hc0 : 0 ≤ clampDir d := clampDir_nonneg d
    have hc1 : clampDir d ≤ 1 := clampDir_le_one d
    have hd : domInsertRowIdx s.rows.length ((r : Int) + clampDir d) =
        some ((r : Int) + clampDir d).toNat := by
      unfold domInsertRowIdx
      rw [if_neg (by omega), if_pos (by omega)]
    have key : insertRow s d = some
        { state := { s with
                     rows := insAt ((r : Int) + clampDir d).toNat
                       (fillRowCells s.numberOfColumns s.nextId s.readOnly) s.rows
                     numberOfRows := s.numberOfRows + 1
                     nextId := s.nextId +
                       (fillRowCells s.numberOfColumns s.nextId s.readOnly).length }
          pos := ((r : Int) + clampDir d).toNat
          newRow := fillRowCells s.numberOfColumns s.nextId s.readOnly } := by
      simp [insertRow, hsr, hd]
    refine ⟨_, key, rfl, ?_, ?_, ?_, rfl⟩
    · intro r' hr'
      cases hr'
      show ((((r : Int) + clampDir d).toNat : Nat) : Int) = (r : Int) + clampDir d
      omega
    · intro h
      cases h
    · show (((r : Int) + clampDir d).toNat : Nat) ≤ s.rows.length
      omega

theorem insertCellEachRow_spec : ∀ (rows : List (List Cell)) (i : Int) (ro : Bool) (nid : Nat),
    0 ≤ i → (∀ r ∈ rows, i ≤ (r.length : Int)) →
    ∃ rows', insertCellEachRow rows i ro nid = some rows' ∧
      rows'.length = rows.length ∧
      ∀ k : Nat, rows'[k]? =
        (rows[k]?).map (fun r => insAt i.toNat (mkCell (nid + k) ro) r)
  | [], i, ro, nid, _, _ => ⟨[], rfl, rfl, fun k => by simp⟩
  | r :: rs, i, ro, nid, h0, hle => by
    have hdc : domInsertCell r i (mkCell nid ro) = some (insAt i.toNat (mkCell nid ro) r) := by
      unfold domInsertCell
      rw [if_neg (by omega), if_pos ⟨h0, hle r (by simp)⟩]
    obtain ⟨rs', hrs', hlen, hpt⟩ :=
      insertCellEachRow_spec rs i ro (nid + 1) h0 (fun r' hr' => hle r' (by simp [hr']))
    refine ⟨insAt i.toNat (mkCell nid ro) r :: rs', ?_, by simp [hlen], ?_⟩
    · simp only [insertCellEachRow, hdc, hrs']
    · intro k
      cases k with
      | zero => simp
      | succ k =>
        have harith : nid + 1 + k = nid + (k + 1) := by omega
        simpa [harith] using hpt k

/-- The invariant maintained by mutation sequences with no selection: no
cell is selected, the column counter is nonnegative and every row of the
grid has exactly `numberOfColumns` cells. -/
def NoSelInv (s : Table) : Prop :=
  s.selectedCell = none ∧ 0 ≤ s.numberOfColumns ∧
    ∀ row ∈ s.rows, (row.length : Int) = s.numberOfColumns

theorem applyOp_preserves (s : Table) (h : NoSelInv s) (op : Op) :
    ∃ s', applyOp s op = some s' ∧ NoSelInv s' := by
  obtain ⟨hsel, hcols, hrows⟩ := h
  cases op with
  | insertRow d =>
    obtain ⟨ri, hins, hrow, -, hpos0, -, hstate⟩ := insertRow_spec s d
    have hpos : ri.pos = 0 := hpos0 (by simp [selectedRow, hsel])
    refine ⟨ri.state, by simp [applyOp, hins], ?_, ?_, ?_⟩ <;> rw [hstate]
    · exact hsel
    · exact hcols
    · intro row hmem
      rw [hpos] at hmem
      simp only [insAt] at hmem
      rcases List.mem_cons.mp hmem with hmem | hmem
      · subst hmem
        rw [hrow, fillRowCells_length]
        exact Int.toNat_of_nonneg hcols
      · exact hrows row hmem
  | deleteRow i =>
    exact ⟨s, by simp [applyOp, deleteRow, selectedRow, hsel], hsel, hcols, hrows⟩
  | insertColumn d =>
    have hidx : insColIdx s d = 0 := by simp [insColIdx, hsel]
    obtain ⟨rows', hrows', hlen, hpt⟩ :=
      insertCellEachRow_spec s.rows 0 s.readOnly s.nextId le_rfl
        (fun r _ => by positivity)
    refine ⟨{ s with
              rows := rows'
              numberOfColumns := s.numberOfColumns + 1
              nextId := s.nextId + s.rows.length }, ?_, hsel,
      (show (0:Int) ≤ s.numberOfColumns + 1 by omega), ?_⟩
    · simp [applyOp, insertColumn, hidx, hrows']
    · intro row hmem
      simp only at hmem
      obtain ⟨k, hk⟩ := List.mem_iff_getElem?.mp hmem
      rw [hpt k] at hk
      obtain ⟨r0, hr0, hr0e⟩ := Option.map_eq_some'.mp hk
      have : (r0.length : Int) = s.numberOfColumns :=
        hrows r0 (List.getElem?_mem hr0)
      rw [← hr0e, insAt_length]
      push_cast
      omega
  | deleteColumn =>
    exact ⟨s, by simp [applyOp, deleteColumn, hsel], hsel, hcols, hrows⟩

theorem run_preserves : ∀ (ops : List Op) (s : Table), NoSelInv s →
    ∃ s', run s ops = some s' ∧ NoSelInv s'
  | [], s, h => ⟨s, rfl, h⟩
  | op :: ops, s, h => by
    obtain ⟨s1, h1, hinv1⟩ := applyOp_preserves s h op
    obtain ⟨s', h', hinv'⟩ := run_preserves ops s1 hinv1
    exact ⟨s', by simp [run, h1, h'], hinv'⟩

theorem noSelInv_new (ro : Bool) : NoSelInv (Table.new ro) :=
  ⟨rfl, le_rfl, by simp [Table.new]⟩

theorem run_reaches_grid22 :
    run (Table.new false) [.insertRow 0, .insertRow 0, .insertColumn 0, .insertColumn 0] =
      some grid22 := by
  decide

theorem hlUpd_id (id : Nat) (b : Bool) (c : Cell) : (hlUpd id b c).id = c.id := by
  unfold hlUpd
  split <;> rfl

theorem mem_setHighlight {rows : List (List Cell)} {id : Nat} {b : Bool} {c' : Cell}
    (h : c' ∈ (setHighlight rows id b).flatten) :
    ∃ c ∈ rows.flatten, c' = hlUpd id b c := by
  unfold setHighlight at h
  rw [← List.map_flatten] at h
  obtain ⟨c, hc, rfl⟩ := List.mem_map.mp h
  exact ⟨c, hc, rfl⟩

theorem hlInv_setSelectedCell (s : Table) (v : Option Nat) (h : HlInv s) :
    HlInv (setSelectedCell s v) := by
  obtain ⟨ro, nR, nC, rows, sel, nid⟩ := s
  cases sel with
  | none =>
    cases v with
    | none =>
      intro c' hc' hhl
      exact h c' hc' hhl
    | some nw =>
      intro c' hc' hhl
      show some nw = some c'.id
      have hc2 : c' ∈ (setHighlight rows nw true).flatten := hc'
      obtain ⟨c0, hc0, rfl⟩ := mem_setHighlight hc2
      by_cases h0 : c0.id = nw
      · rw [hlUpd_id, h0]
      · have he : hlUpd nw true c0 = c0 := by unfold hlUpd; rw [if_neg h0]
        rw [he] at hhl
        exact absurd (h c0 hc0 hhl) (by simp)
  | some old =>
    cases v with
    | none =>
      intro c' hc' hhl
      show none = some c'.id
      have hc2 : c' ∈ (setHighlight rows old false).flatten := hc'
      obtain ⟨c0, hc0, rfl⟩ := mem_setHighlight hc2
      by_cases h0 : c0.id = old
      · have : (hlUpd old false c0).highlighted = false := by unfold hlUpd; rw [if_pos h0]
        rw [hhl] at this
        cases this
      · have he : hlUpd old false c0 = c0 := by unfold hlUpd; rw [if_neg h0]
        rw [he] at hhl
        have := h c0 hc0 hhl
        simp only [Option.some.injEq] at this
        exact absurd this.symm h0
    | some nw =>
      intro c' hc' hhl
      show some nw = some c'.id
      have hc2 : c' ∈ (setHighlight (setHighlight rows old false) nw true).flatten := hc'
      obtain ⟨c1, hc1, rfl⟩ := mem_setHighlight hc2
      by_cases h1 : c1.id = nw
      · rw [hlUpd_id, h1]
      · have he1 : hlUpd nw true c1 = c1 := by unfold hlUpd; rw [if_neg h1]
        rw [he1] at hhl
        obtain ⟨c0, hc0, rfl⟩ := mem_setHighlight hc1
        by_cases h0 : c0.id = old
        · have : (hlUpd old false c0).highlighted = false := by unfold hlUpd; rw [if_pos h0]
          rw [hhl] at this
          cases this
        · have he0 : hlUpd old false c0 = c0 := by unfold hlUpd; rw [if_neg h0]
          rw [he0] at hhl
          have := h c0 hc0 hhl
          simp only [Option.some.injEq] at this
          exact absurd this.symm h0

theorem map_id_of_id_preserved (f : Cell → Cell) (hf : ∀ c, (f c).id = c.id) :
    ∀ l : List Cell, (l.map f).map Cell.id = l.map Cell.id := by
  intro l
  induction l with
  | nil => rfl
  | cons c cs ih => simp [hf, ih]

theorem cellIds_setSelectedCell (s : Table) (v : Option Nat) :
    cellIds (setSelectedCell s v) = cellIds s := by
  obtain ⟨ro, nR, nC, rows, sel, nid⟩ := s
  have key : ∀ (rs : List (List Cell)) (id : Nat) (b : Bool),
      (setHighlight rs id b).flatten.map Cell.id = rs.flatten.map Cell.id := by
    intro rs id b
    unfold setHighlight
    rw [← List.map_flatten]
    exact map_id_of_id_preserved _ (hlUpd_id id b) _
  cases sel <;> cases v <;>
    simp only [cellIds, allCells, setSelectedCell, key]

theorem highlightCount_le_one (s : Table) (hn : (cellIds s).Nodup) (h : HlInv s) :
    highlightCount s ≤ 1 := by
  unfold highlightCount
  cases hsel : s.selectedCell with
  | none =>
    have : (allCells s).countP (fun c => c.highlighted) = 0 := by
      refine List.countP_eq_zero.mpr ?_
      intro c hc hch
      exact absurd (h c hc hch) (by simp [hsel])
    omega
  | some v =>
    have step1 : (allCells s).countP (fun c => c.highlighted) ≤
        (allCells s).countP (fun c => c.id == v) := by
      refine List.countP_mono_left ?_
      intro c hc hch
      have := h c hc (by simpa using hch)
      rw [hsel] at this
      simp only [Option.some.injEq] at this
      simp [this]
    have step2 : (allCells s).countP (fun c => c.id == v) = (cellIds s).count v := by
      show _ = (cellIds s).countP (· == v)
      rw [cellIds, List.countP_map]
      rfl
    have step3 : (cellIds s).count v ≤ 1 := List.nodup_iff_count_le_one.mp hn v
    omega

theorem runSel_preserves : ∀ (ops : List (Option Nat)) (s : Table),
    (cellIds s).Nodup → HlInv s →
    (cellIds (runSel s ops)).Nodup ∧ HlInv (runSel s ops)
  | [], s, hn, h => ⟨hn, h⟩
  | v :: vs, s, hn, h => by
    have hn' : (cellIds (setSelectedCell s v)).Nodup := by
      rw [cellIds_setSelectedCell]; exact hn
    exact runSel_preserves vs (setSelectedCell s v) hn' (hlInv_setSelectedCell s v h)

/-- C1: starting from a freshly constructed controller (0 rows, 0 columns),
every sequence of `insertRow`, `deleteRow`, `insertColumn` and `deleteColumn`
calls runs without raising, and afterwards every row of the grid has exactly
`numberOfColumns` cells. -/
theorem c1_uniform_width_after_any_op_sequence (ro : Bool) (ops : List Op) :
    ∃ s', run (Table.new ro) ops = some s' ∧
      ∀ row ∈ s'.rows, (row.length : Int) = s'.numberOfColumns := by
  obtain ⟨s', h, hinv⟩ := run_preserves ops (Table.new ro) (noSelInv_new ro)
  exact ⟨s', h, hinv.2.2⟩

/-- C2: for every direction argument, `insertRow` clamps the direction to
{0,1}, splices the new row in at `selectedRow.rowIndex + direction` when a
row is selected and at 0 otherwise, populates it with exactly
`numberOfColumns` empty cells (each carrying an editable area that follows
the read-only flag), increments `numberOfRows` by one, and returns the new
row. -/
theorem c2_insertRow_functional_spec (s : Table) (d : Int)
    (hc : 0 ≤ s.numberOfColumns) :
    (clampDir d = 0 ∨ clampDir d = 1) ∧
    ∃ ri, insertRow s d = some ri ∧
      (∀ r, selectedRow s = some r → (ri.pos : Int) = (r : Int) + clampDir d) ∧
      (selectedRow s = none → ri.pos = 0) ∧
      ri.state.rows = insAt ri.pos ri.newRow s.rows ∧
      ri.state.rows[ri.pos]? = some ri.newRow ∧
      (ri.newRow.length : Int) = s.numberOfColumns ∧
      (∀ c ∈ ri.newRow, c.contenteditable = !s.readOnly ∧ c.highlighted = false ∧
        c.content = "") ∧
      ri.state.numberOfRows = s.numberOfRows + 1 := by
  obtain ⟨ri, hins, hrow, hsome, hnone, hle, hstate⟩ := insertRow_spec s d
  refine ⟨clampDir_eq_zero_or_one d, ri, hins, hsome, hnone, ?_, ?_, ?_, ?_, ?_⟩
  · rw [hstate]
  · rw [hstate]
    exact insAt_getElem_self ri.pos ri.newRow s.rows hle
  · rw [hrow, fillRowCells_length]
    exact Int.toNat_of_nonneg hc
  · intro c hcmem
    rw [hrow] at hcmem
    exact fillRowCells_mem hcmem
  · rw [hstate]

theorem c2_insertRow_witness :
    0 ≤ grid22sel.numberOfColumns ∧
    ((clampDir 5 = 0 ∨ clampDir 5 = 1) ∧
     ∃ ri, insertRow grid22sel 5 = some ri ∧
       (∀ r, selectedRow grid22sel = some r → (ri.pos : Int) = (r : Int) + clampDir 5) ∧
       (selectedRow grid22sel = none → ri.pos = 0) ∧
       ri.state.rows = insAt ri.pos ri.newRow grid22sel.rows ∧
       ri.state.rows[ri.pos]? = some ri.newRow ∧
       (ri.newRow.length : Int) = grid22sel.numberOfColumns ∧
       (∀ c ∈ ri.newRow, c.contenteditable = !grid22sel.readOnly ∧ c.highlighted = false ∧
         c.content = "") ∧
       ri.state.numberOfRows = grid22sel.numberOfRows + 1) :=
  ⟨by decide, c2_insertRow_functional_spec grid22sel 5 (by decide)⟩

/-- C3: for every direction argument, `insertColumn` clamps the direction to
{0,1}, computes the insertion index as `selectedCell.cellIndex + direction`
when a cell is selected and 0 otherwise, inserts one fresh empty editable
cell at that index in every existing row, and increments `numberOfColumns`
by one.  The accompanying witness instantiates the spec's scenario: a 2-by-2
grid with no selection and direction 1 gains its new column at index 0 in
every row and becomes 2-by-3. -/
theorem c3_insertColumn_functional_spec (s : Table) (d : Int)
    (hsel : s.selectedCell = none ∨
      ∃ id p, s.selectedCell = some id ∧ findCellPos s.rows id = some p)
    (huni : ∀ row ∈ s.rows, (row.length : Int) = s.numberOfColumns) :
    (clampDir d = 0 ∨ clampDir d = 1) ∧
    (s.selectedCell = none → insColIdx s d = 0) ∧
    (∀ id, s.selectedCell = some id →
      insColIdx s d = domCellIndex s.rows id + clampDir d) ∧
    ∃ s', insertColumn s d = some s' ∧
      s'.numberOfColumns = s.numberOfColumns + 1 ∧
      s'.rows.length = s.rows.length ∧
      (∀ k : Nat, s'.rows[k]? = (s.rows[k]?).map
        (fun row => insAt (insColIdx s d).toNat (mkCell (s.nextId + k) s.readOnly) row)) ∧
      (∀ n, (mkCell n s.readOnly).contenteditable = !s.readOnly ∧
        (mkCell n s.readOnly).highlighted = false ∧
        (mkCell n s.readOnly).content = "") := by
  have hb : 0 ≤ insColIdx s d ∧ ∀ r ∈ s.rows, insColIdx s d ≤ (r.length : Int) := by
    rcases hsel with h | ⟨id, ⟨r, j⟩, hid, hp⟩
    · simp only [insColIdx, h]
      exact ⟨le_rfl, fun r _ => by positivity⟩
    · have hj : domCellIndex s.rows id = (j : Int) := by simp [domCellIndex, hp]
      obtain ⟨row, hrow, hjlt⟩ := findCellPos_spec hp
      have hrc : (row.length : Int) = s.numberOfColumns := huni row (List.getElem?_mem hrow)
      have hc0 := clampDir_nonneg d
      have hc1 := clampDir_le_one d
      have hident : insColIdx s d = (j : Int) + clampDir d := by
        simp only [insColIdx, hid, hj]
      constructor
      · rw [hident]; omega
      · intro r0 hr0
        have := huni r0 hr0
        rw [hident]
        omega
  obtain ⟨rows', hrows', hlen, hpt⟩ :=
    insertCellEachRow_spec s.rows (insColIdx s d) s.readOnly s.nextId hb.1 hb.2
  refine ⟨clampDir_eq_zero_or_one d, fun h => by simp only [insColIdx, h],
    fun id hid => by simp only [insColIdx, hid], ?_⟩
  refine ⟨{ s with rows := rows'
                   numberOfColumns := s.numberOfColumns + 1
                   nextId := s.nextId + s.rows.length }, ?_, rfl, hlen, hpt,
    fun n => ⟨rfl, rfl, rfl⟩⟩
  simp [insertColumn, hrows']

theorem c3_insertColumn_witness :
    ((clampDir 1 = 0 ∨ clampDir 1 = 1) ∧
     (grid22.selectedCell = none → insColIdx grid22 1 = 0) ∧
     (∀ id, grid22.selectedCell = some id →
       insColIdx grid22 1 = domCellIndex grid22.rows id + clampDir 1) ∧
     ∃ s', insertColumn grid22 1 = some s' ∧
       s'.numberOfColumns = grid22.numberOfColumns + 1 ∧
       s'.rows.length = grid22.rows.length ∧
       (∀ k : Nat, s'.rows[k]? = (grid22.rows[k]?).map
         (fun row => insAt (insColIdx grid22 1).toNat
           (mkCell (grid22.nextId + k) grid22.readOnly) row)) ∧
       (∀ n, (mkCell n grid22.readOnly).contenteditable = !grid22.readOnly ∧
         (mkCell n grid22.readOnly).highlighted = false ∧
         (mkCell n grid22.readOnly).content = "")) ∧
    insertColumn grid22 1 = some
      { grid22 with
        rows := [[mkCell 4 false, mkCell 2 false, mkCell 0 false],
                 [mkCell 5 false, mkCell 3 false, mkCell 1 false]]
        numberOfColumns := 3
        nextId := 6 } :=
  ⟨c3_insertColumn_functional_spec grid22 1 (Or.inl rfl) (by decide), by decide⟩

/-- C4 counterexample: on a concrete 2-by-2 table whose selected cell lies
in row 0, `insertRowBefore` disagrees with `insertRow` at direction 1 and
`insertRowAfter` disagrees with `insertRow` at direction 0, so the row
wrappers do not pass the inverted directions the claim describes. -/
theorem c4_counterexample :
    insertRowBefore grid22sel ≠ insertRow grid22sel 1 ∧
    insertRowAfter grid22sel ≠ insertRow grid22sel 0 := by
  decide

/-- C4 (amended): the row wrappers pass the same directions as their column
counterparts — `insertRowBefore`/`insertRowAfter` call `insertRow` with 0/1
exactly as `insertColumnBefore`/`insertColumnAfter` call `insertColumn` with
0/1; it is only the two doc comments on the row wrappers that are swapped in
the source. -/
theorem c4_wrappers_direction_consistent (s : Table) :
    insertRowBefore s = insertRow s 0 ∧ insertRowAfter s = insertRow s 1 ∧
    insertColumnBefore s = insertColumn s 0 ∧ insertColumnAfter s = insertColumn s 1 :=
  ⟨rfl, rfl, rfl, rfl⟩

/-- C5 counterexample: starting from the highlight-free reachable state
`grid22`, select a cell through the public setter (highlighting it), let a
focus event move the selection (the handler writes the private field and
touches no highlight class), then select a third cell through the setter:
two distinct cells now carry the highlight class at once. -/
theorem c5_counterexample :
    highlightCount
      (setSelectedCell (focusEditField (setSelectedCell grid22 (some 2)) (.inputFieldOf 0))
        (some 3)) = 2 := by
  decide

/-- C5 (amended): highlight exclusivity holds for the `selectedCell` setter
alone: in a grid with distinct cell ids in which every highlighted cell is
the currently stored selection, any sequence of setter assignments keeps
that property, and in particular at most one cell carries the highlight
class.  The focus/blur handlers, which write the private field directly,
are not covered — interleaving one of them can break exclusivity (see the
counterexample). -/
theorem c5_setter_highlight_exclusive (s : Table) (ops : List (Option Nat))
    (hn : (cellIds s).Nodup) (h : HlInv s) :
    HlInv (runSel s ops) ∧ highlightCount (runSel s ops) ≤ 1 := by
  obtain ⟨hn', h'⟩ := runSel_preserves ops s hn h
  exact ⟨h', highlightCount_le_one _ hn' h'⟩

theorem c5_setter_highlight_witness :
    (cellIds grid22).Nodup ∧ HlInv grid22 ∧
    (HlInv (runSel grid22 [some 2, none, some 0]) ∧
      highlightCount (runSel grid22 [some 2, none, some 0]) ≤ 1) :=
  ⟨by decide, by decide,
    c5_setter_highlight_exclusive grid22 [some 2, none, some 0] (by decide) (by decide)⟩

/-- C6: `_attachEvents` registers no blur/focusout listener, so an event
fired when focus leaves an editable area reaches no handler and the
selection is not cleared; the unregistered handler `_blurEditField` would
have cleared it. -/
theorem c6_blur_listener_not_attached :
    (∀ (s : Table) (t : EvTarget), dispatchEvent s (.blur t) = s) ∧
    (∀ (s : Table) (id : Nat),
      blurEditField s (.inputFieldOf id) = { s with selectedCell := none }) ∧
    dispatchEvent grid22sel (.blur (.inputFieldOf 0)) = grid22sel ∧
    grid22sel.selectedCell = some 0 :=
  ⟨fun _ _ => rfl, fun _ _ => rfl, rfl, rfl⟩

/-- C7: with no cell selected, `deleteColumn` — and `deleteRow` for every
index argument — returns without raising and leaves the whole state
(counters and grid) unchanged. -/
theorem c7_delete_without_selection_noop (s : Table) (h : s.selectedCell = none) :
    deleteColumn s = some s ∧ ∀ i : Int, deleteRow s i = some s := by
  constructor
  · simp [deleteColumn, h]
  · intro i
    simp [deleteRow, selectedRow, h]

theorem c7_delete_noop_witness :
    grid22.selectedCell = none ∧
    (deleteColumn grid22 = some grid22 ∧ ∀ i : Int, deleteRow grid22 i = some grid22) :=
  ⟨rfl, c7_delete_without_selection_noop grid22 rfl⟩

/-- C8: evaluating the Ctrl+Enter path at its failing input, a 1-by-1 table
whose only cell is selected: the handler inserts the new row directly after
the current row (at index 1), the click on the new row's first cell focuses
its editable area so the selection moves to the new cell (id 1), but then
the unbound identifier `side` raises a `ReferenceError` while the event
detail is built, so the `mouseInActivatingArea` notification is never
dispatched. -/
theorem c8_ctrl_enter_throws_before_dispatch :
    containerKeydown grid11sel
        { key := "Enter", ctrlKey := true, shiftKey := false, target := .inputFieldOf 0 } =
      some { state := { readOnly := false
                        numberOfRows := 2
                        numberOfColumns := 1
                        rows := [[mkCell 0 false], [mkCell 1 false]]
                        selectedCell := some 1
                        nextId := 2 }
             error := some .referenceError
             dispatched := false } := by
  decide

/-- C9: `deleteRow` never reads its index parameter — any two argument
values produce identical results — and whenever the selected cell lies at
position `(r, c)` of the grid, the row removed is row `r`, the row
containing the selected cell, with `numberOfRows` decremented and nothing
else changed. -/
theorem c9_deleteRow_ignores_index (s : Table) (i j : Int) :
    deleteRow s i = deleteRow s j ∧
    ∀ (id r c : Nat), s.selectedCell = some id → findCellPos s.rows id = some (r, c) →
      deleteRow s i = some { s with rows := s.rows.eraseIdx r
                                    numberOfRows := s.numberOfRows - 1 } := by
  refine ⟨rfl, ?_⟩
  intro id r c hid hp
  have hsr : selectedRow s = some r := by simp [selectedRow, hid, hp]
  obtain ⟨row, hrow, -⟩ := findCellPos_spec hp
  have hrlt : r < s.rows.length := (List.getElem?_eq_some.mp hrow).1
  have hd : domDeleteRowIdx s.rows.length (r : Int) = some r := by
    unfold domDeleteRowIdx
    rw [if_neg (by omega), if_pos (by omega)]
    simp
  simp [deleteRow, hsr, hd]

theorem c9_deleteRow_witness :
    deleteRow grid22sel 7 = deleteRow grid22sel (-1) ∧
    grid22sel.selectedCell = some 0 ∧
    findCellPos grid22sel.rows 0 = some (0, 1) ∧
    deleteRow grid22sel 7 = some { grid22sel with rows := grid22sel.rows.eraseIdx 0
                                                  numberOfRows := grid22sel.numberOfRows - 1 } :=
  ⟨(c9_deleteRow_ignores_index grid22sel 7 (-1)).1, rfl, by decide,
    (c9_deleteRow_ignores_index grid22sel 7 (-1)).2 0 0 1 rfl (by decide)⟩

/-- C10: when `numberOfColumns ≥ 1` the Ctrl+Enter handler's access to the
new row's first cell succeeds (the run proceeds to the `ReferenceError` at
the dispatch step, past the click); when `numberOfColumns = 0` the freshly
inserted row has zero cells, `newRow.cells[0].click()` raises `TypeError`,
no notification is dispatched, and yet the empty row is already inserted
and `numberOfRows` already incremented. -/
theorem c10_ctrl_enter_first_cell_access (s : Table) :
    (1 ≤ s.numberOfColumns →
      ∃ out, containerEnterPressed s = some out ∧ out.error = some .referenceError ∧
        out.dispatched = false) ∧
    (s.numberOfColumns = 0 →
      ∃ out, containerEnterPressed s = some out ∧ out.error = some .typeError ∧
        out.dispatched = false ∧
        out.state.numberOfRows = s.numberOfRows + 1 ∧
        out.state.rows.length = s.rows.length + 1 ∧
        ∃ p, out.state.rows = insAt p [] s.rows) := by
  obtain ⟨ri, hins, hrow, -, -, -, hstate⟩ := insertRow_spec s 1
  constructor
  · intro h1
    have hlen : ri.newRow.length = s.numberOfColumns.toNat := by
      rw [hrow, fillRowCells_length]
    have hne : ri.newRow ≠ [] := by
      intro he
      rw [he] at hlen
      simp only [List.length_nil] at hlen
      omega
    obtain ⟨c, cs, hcons⟩ := List.exists_cons_of_ne_nil hne
    refine ⟨{ state := clickedOnCell ri.state (.cellElem c.id)
              error := some .referenceError
              dispatched := false }, ?_, rfl, rfl⟩
    simp [containerEnterPressed, hins, hcons]
  · intro h0
    have hrow0 : ri.newRow = [] := by
      rw [hrow, h0]
      simp [fillRowCells]
    refine ⟨{ state := ri.state, error := some .typeError, dispatched := false },
      ?_, rfl, rfl, ?_, ?_, ⟨ri.pos, ?_⟩⟩
    · simp [containerEnterPressed, hins, hrow0]
    · rw [hstate]
    · rw [hstate]
      exact insAt_length ri.pos ri.newRow s.rows
    · rw [hstate]
      show insAt ri.pos ri.newRow s.rows = insAt ri.pos [] s.rows
      rw [hrow0]

theorem c10_ctrl_enter_witness :
    (1 ≤ grid22.numberOfColumns ∧
      ∃ out, containerEnterPressed grid22 = some out ∧ out.error = some .referenceError ∧
        out.dispatched = false) ∧
    ((Table.new false).numberOfColumns = 0 ∧
      ∃ out, containerEnterPressed (Table.new false) = some out ∧
        out.error = some .typeError ∧
        out.dispatched = false ∧
        out.state.numberOfRows = (Table.new false).numberOfRows + 1 ∧
        out.state.rows.length = (Table.new false).rows.length + 1 ∧
        ∃ p, out.state.rows = insAt p [] (Table.new false).rows) :=
  ⟨⟨by decide, (c10_ctrl_enter_first_cell_access grid22).1 (by decide)⟩,
    ⟨rfl, (c10_ctrl_enter_first_cell_access (Table.new false)).2 rfl⟩⟩

end Table

end TableJS
